import Mathlib

/-
  Verification of the LeetShip browser extension (submission-to-commit
  pipeline) against its natural-language specification.

  Each definition below is a shallow embedding of a function of the
  TypeScript source; the source file and symbol are named in the doc
  comment.  JavaScript strings are modelled as Lean String (UTF-16 units
  coincide with Lean characters on the ASCII/BMP inputs used here), and
  JavaScript numbers as Nat/Int with explicit 32-bit truncation where the
  source uses bitwise operators.
-/

set_option maxRecDepth 4000

/-! ## String helpers (JavaScript semantics) -/

/-- Tests whether the list `pat` occurs at the head of `l`. -/
def listPrefixOf : List Char → List Char → Bool
  | [], _ => true
  | _ :: _, [] => false
  | a :: as, b :: bs => a == b && listPrefixOf as bs

/-- Tests whether `pat` occurs anywhere in `l`;
models JavaScript String.prototype.includes. -/
def listSearch (pat : List Char) : List Char → Bool
  | [] => listPrefixOf pat []
  | c :: rest => listPrefixOf pat (c :: rest) || listSearch pat rest

/-- Models JavaScript s.includes(pat). -/
def strContains (s pat : String) : Bool := listSearch pat.data s.data

/-- Fuel-driven replace-all on character lists: at each position, if `pat`
(non-empty) matches, emit `rep` and continue after the match, else keep one
character.  This is the left-to-right non-overlapping global replacement
performed by JavaScript s.replace(new RegExp(literal, 'g'), rep) for a
literal pattern and a replacement with no dollar escapes.  The fuel is the
length of the subject, which every step strictly decreases. -/
def replaceFuel (pat rep : List Char) : Nat → List Char → List Char
  | 0, l => l
  | _ + 1, [] => []
  | fuel + 1, c :: rest =>
      if listPrefixOf pat (c :: rest) && decide (0 < pat.length) then
        rep ++ replaceFuel pat rep fuel (List.drop (pat.length - 1) rest)
      else
        c :: replaceFuel pat rep fuel rest

/-- Models s.replace(new RegExp(pat, 'g'), rep) for a literal pattern. -/
def replaceAll (s pat rep : String) : String :=
  ⟨replaceFuel pat.data rep.data s.data.length s.data⟩

/-- JavaScript whitespace characters relevant to trim on our inputs. -/
def isJsWs (c : Char) : Bool := c == ' ' || c == '\n' || c == '\t' || c == '\r'

/-- Drops leading whitespace. -/
def dropWs : List Char → List Char
  | [] => []
  | c :: rest => if isJsWs c then dropWs rest else c :: rest

/-- Models JavaScript s.trim(). -/
def jsTrim (s : String) : String :=
  ⟨(dropWs (dropWs s.data).reverse).reverse⟩

/-- Models the JavaScript truthiness fallback a || b on strings. -/
def jsOr (a b : String) : String := if a == "" then b else a

/-! ## TemplateEngine (src: templates.ts, class TemplateEngine) -/

/-- The TemplateVariables record produced by TemplateEngine.getVariables;
the two percentile fields are optional in the source. -/
structure TemplateVariables where
  id : String
  title : String
  slug : String
  difficulty : String
  tags : String
  lang : String
  runtime : String
  memory : String
  timestamp : String
  link : String
  runtimePercentile : Option String
  memoryPercentile : Option String
deriving DecidableEq

/-- Object.entries of a TemplateVariables object, in the construction order
of getVariables; an undefined value is turned into the empty string by the
source's value || '' before substitution. -/
def TemplateVariables.entries (v : TemplateVariables) : List (String × String) :=
  [("id", v.id), ("title", v.title), ("slug", v.slug),
   ("difficulty", v.difficulty), ("tags", v.tags), ("lang", v.lang),
   ("runtime", v.runtime), ("memory", v.memory),
   ("timestamp", v.timestamp), ("link", v.link),
   ("runtimePercentile", v.runtimePercentile.getD ""),
   ("memoryPercentile", v.memoryPercentile.getD "")]

namespace TemplateEngine

/-- Models TemplateEngine.render: for each entry (key, value) in order it
replaces every occurrence of the brace-delimited key pattern with the value. -/
def render (template : String) (v : TemplateVariables) : String :=
  v.entries.foldl
    (fun res kv => replaceAll res ("\x7b\x7b" ++ kv.1 ++ "\x7d\x7d") kv.2) template

/-- The character class of the source's sanitizing regex; note that it
contains the forward slash. -/
def sanitizedChars : List Char := ['<', '>', ':', '\"', '/', '\\', '|', '?', '*']

/-- One character of the first replace of generateFolderPath (and of
sanitizeFilename): every character of the class becomes a dash. -/
def sanitizeChar (c : Char) : Char :=
  if sanitizedChars.contains c then '-' else c

/-- Second replace of generateFolderPath: collapses every run of slashes
after an emitted slash. -/
def collapseGo : Char → List Char → List Char
  | _, [] => []
  | prev, c :: rest =>
      if prev == '/' && c == '/' then collapseGo prev rest
      else c :: collapseGo c rest

/-- Models the replacement of every run of slashes by a single slash. -/
def collapseSlashes : List Char → List Char
  | [] => []
  | c :: rest => c :: collapseGo c rest

/-- Models TemplateEngine.generateFolderPath: render the template, then
replace every character of the sanitizing class (including the slash) by a
dash, then collapse runs of slashes. -/
def generateFolderPath (folderTemplate : String) (v : TemplateVariables) : String :=
  let path := render folderTemplate v
  ⟨collapseSlashes (path.data.map sanitizeChar)⟩

end TemplateEngine

/-- The default folder layout template of DEFAULT_CONFIG (storage.ts),
also the template named by the specification. -/
def defaultFolderLayout : String := "\x7b\x7bdifficulty\x7d\x7d/\x7b\x7bid\x7d\x7d-\x7b\x7bslug\x7d\x7d"

/-- The concrete variables of the folder-path rendering scenario:
id "0001", difficulty "easy", slug "two-sum". -/
def c3Vars : TemplateVariables :=
  { id := "0001", title := "Two Sum", slug := "two-sum", difficulty := "easy",
    tags := "array", lang := "python3", runtime := "52 ms", memory := "15.3 MB",
    timestamp := "2024-01-01T00:00:00.000Z",
    link := "https://leetcode.com/problems/two-sum/",
    runtimePercentile := none, memoryPercentile := none }


/-! ## GitHubAPI (src: github/api.ts, class GitHubAPI)

The remote repository is modelled, for a fixed owner, repository and
branch, as an association list from path to file; a file carries its
content and its content hash (sha).  GitHub's blob sha is a function of
the content; it is modelled by an injective tagging function. -/

/-- A file of the contents API: decoded content plus its sha. -/
structure GitHubFile where
  content : String
  sha : String
deriving DecidableEq

/-- Remote repository state: path to file. -/
abbrev RepoState := List (String × GitHubFile)

/-- The content hash the remote assigns to a stored content. -/
def shaOf (content : String) : String := "blob-" ++ content

/-- Models GitHubAPI.getFile: the file at the path, or absent on the
not-found response (any other failure propagates and is outside this
state-based model). -/
def getFile (repo : RepoState) (path : String) : Option GitHubFile :=
  match repo with
  | [] => none
  | (p, f) :: rest => if p = path then some f else getFile rest path

/-- The PUT request issued against the contents endpoint: createFile sends
no sha, updateFile sends the concurrency-token sha. -/
inductive PutRequest where
  | create (path content : String)
  | update (path content sha : String)
deriving DecidableEq

/-- Models GitHubAPI.createOrUpdateFile: reads the file first via getFile;
if present, updates with that file's sha; if absent, creates without a
sha. -/
def createOrUpdateFile (repo : RepoState) (path content : String) : PutRequest :=
  match getFile repo path with
  | some existingFile => .update path content existingFile.sha
  | none => .create path content

/-- Stores a file at a path, replacing an existing entry. -/
def putEntry : RepoState → String → GitHubFile → RepoState
  | [], p, f => [(p, f)]
  | (q, g) :: rest, p, f =>
      if q = p then (p, f) :: rest else (q, g) :: putEntry rest p f

/-- Models the remote side of the contents PUT endpoint: a create of an
existing path is rejected (422), an update whose sha does not match the
current file's sha is rejected (409 conflict), an update of a missing path
is rejected (404). -/
def applyPut (repo : RepoState) (req : PutRequest) : Except String RepoState :=
  match req with
  | .create p c =>
      match getFile repo p with
      | some _ => .error "422: sha was not supplied for an existing file"
      | none => .ok (putEntry repo p { content := c, sha := shaOf c })
  | .update p c sha =>
      match getFile repo p with
      | none => .error "404: no file to update"
      | some f =>
          if f.sha = sha then .ok (putEntry repo p { content := c, sha := shaOf c })
          else .error "409: sha conflict"

/-! ## GitHubAPI.makeRequest error classification (src: github/api.ts) -/

/-- The error kinds a non-2xx response can surface as. -/
inductive GitHubError where
  | badCredentials
  | rateLimited
  | jsSyntaxError
  | apiError (status : Nat) (body : String)
deriving DecidableEq

/-- Models the try block of the 403 branch of makeRequest: JSON.parse of
the body followed by errorData.message?.includes('rate limit').  The
argument describes the parse outcome: none if JSON.parse throws, some none
if the parsed object has no message field, some (some m) if the message is
m.  A thrown value (either the SyntaxError of JSON.parse or the rate-limit
Error thrown inside the block) is the .error case. -/
def rateLimitProbe (parsed : Option (Option String)) : Except GitHubError Unit :=
  match parsed with
  | none => .error .jsSyntaxError
  | some none => .ok ()
  | some (some m) =>
      if strContains m "rate limit" then .error .rateLimited else .ok ()

/-- Models makeRequest on a non-2xx response: returns the error the call
rejects with, paired with whether storage.forceTokenRefresh was invoked.
The 403 branch runs rateLimitProbe inside a try whose catch swallows
whatever was thrown — including the rate-limit error itself — and, in the
source, control then always reaches the generic throw. -/
def makeRequestError (status : Nat) (body : String)
    (parsed : Option (Option String)) : GitHubError × Bool :=
  if status = 401 then
    (.badCredentials, true)
  else if status = 403 then
    match rateLimitProbe parsed with
    | .ok _ => (.apiError 403 body, false)
    | .error _ => (.apiError 403 body, false)
  else
    (.apiError status body, false)

deriving instance DecidableEq for Except

/-- The body of a rate-limited 403 response, and its parsed message. -/
def rateLimitBody : String :=
  "\x7b\"message\":\"API rate limit exceeded for user\"\x7d"

/-- The message field JSON.parse extracts from rateLimitBody. -/
def rateLimitMessage : String := "API rate limit exceeded for user"


/-! ## Data model (src: types.ts) -/

/-- A LeetCodeSubmission; the fields not used by any claim under
verification (tags, link, timestamp, status, percentiles, fileExtension)
are omitted. -/
structure Submission where
  id : String
  title : String
  titleSlug : String
  difficulty : String
  language : String
  code : String
  runtime : String
  memory : String
deriving DecidableEq

/-- A QueuedCommit of the durable commit queue. -/
structure QueuedCommit where
  id : String
  submission : Submission
  timestamp : Nat
  retryCount : Nat
  lastError : Option String
deriving DecidableEq

/-! ## Dedup fingerprint (src: background/index.ts,
LeetShipBackgroundService.generateSubmissionKey and simpleHash) -/

/-- Truncation of an integer to a signed 32-bit value, as performed by the
JavaScript bitwise AND with 0xffffffff. -/
def toSigned32 (n : Int) : Int :=
  let m := n % 4294967296
  if m < 2147483648 then m else m - 4294967296

/-- Models simpleHash's loop body hash = ((hash << 5) - hash + code) &
0xffffffff.  The inner shift's own 32-bit wrap is congruent modulo 2^32 to
the plain product, so a single outer truncation is exact. -/
def hashStep (h : Int) (c : Char) : Int := toSigned32 (h * 32 - h + c.toNat)

/-- One base-36 digit, lowercase, as produced by Number.toString(36). -/
def base36Digit (n : Nat) : Char :=
  if n < 10 then Char.ofNat (48 + n) else Char.ofNat (87 + n)

/-- Fuel-driven base-36 conversion (64 digits is far beyond any 32-bit
value). -/
def natToBase36Go : Nat → Nat → List Char → List Char
  | 0, _, acc => acc
  | fuel + 1, n, acc =>
      if n = 0 then acc
      else natToBase36Go fuel (n / 36) (base36Digit (n % 36) :: acc)

/-- Models Math.abs(hash).toString(36). -/
def natToBase36 (n : Nat) : String :=
  if n = 0 then "0" else ⟨natToBase36Go 64 n []⟩

/-- Models LeetShipBackgroundService.simpleHash. -/
def simpleHash (s : String) : String :=
  natToBase36 (s.data.foldl hashStep 0).natAbs

/-- Models LeetShipBackgroundService.generateSubmissionKey: the dedup
fingerprint slug-language-codeLength-codeHash. -/
def generateSubmissionKey (s : Submission) : String :=
  s.titleSlug ++ "-" ++ s.language ++ "-" ++ toString s.code.length ++ "-" ++ simpleHash s.code

/-- Models LeetShipBackgroundService.isValidSubmission: the required
fields title, titleSlug, code, language must all be truthy (non-empty). -/
def isValidSubmission (s : Submission) : Bool :=
  s.title != "" && s.titleSlug != "" && s.code != "" && s.language != ""


/-! ## Submission extractors (src: content/leetcode-detector.ts,
classes LeetCodeV1 and LeetCodeV2)

A page is modelled by the outcomes of the DOM probes the extractor runs:
the accepted-result detection, the ordered list of candidate code texts
produced by the code selectors, the problem-info probe, and (for V2) the
Monaco editor registry, the raw-textarea fallback list, the submission id
probe and the GraphQL detail-fetch outcome. -/

/-- The page state LeetCodeV1's probes observe. -/
structure PageV1 where
  isSuccess : Bool
  codeCandidates : List String
  problemInfo : Option (String × String × String)
  language : String
  runtime : String
  memory : String
  nowId : String
deriving DecidableEq

/-- Models the selector loop shared by LeetCodeV1.getCode and the selector
part of LeetCodeV2.getCode: the first candidate whose trimmed text is
non-empty and longer than 10 characters is returned trimmed. -/
def getCodeFromSelectors : List String → Option String
  | [] => none
  | c :: rest =>
      let code := jsTrim c
      if code != "" && decide (10 < code.length) then some code
      else getCodeFromSelectors rest

/-- Models LeetCodeV1.getCode (it has only the selector loop). -/
def getCodeV1 (p : PageV1) : Option String := getCodeFromSelectors p.codeCandidates

/-- The Submission record both page-scraping extractors build: a locally
generated id, the scraped problem info, language, code and stats (with
the N/A fallbacks). -/
def mkPageSubmission (nowId title slug diff language code runtime memory : String) : Submission :=
  { id := nowId, title := title, titleSlug := slug, difficulty := diff,
    language := language, code := code, runtime := jsOr runtime "N/A",
    memory := jsOr memory "N/A" }

/-- Models LeetCodeV1.getSubmissionDetails. -/
def getSubmissionDetailsV1 (p : PageV1) : Option Submission :=
  if !p.isSuccess then none
  else
    match p.problemInfo, getCodeV1 p with
    | some (title, slug, diff), some code =>
        some (mkPageSubmission p.nowId title slug diff p.language code p.runtime p.memory)
    | _, _ => none

/-- The submissionDetails record of the GraphQL detail fetch, as consumed
by LeetCodeV2.getSubmissionFromGraphQL. -/
structure GraphQLDetails where
  title : String
  titleSlug : String
  difficulty : String
  langName : String
  langVerboseName : String
  code : String
  runtime : String
  runtimeDisplay : String
  memory : String
  memoryDisplay : String
deriving DecidableEq

/-- The page state LeetCodeV2's probes observe.  graphql is the fetch
outcome: absent when the request fails or carries no submissionDetails
(the catch turns both into null). -/
structure PageV2 where
  isSuccess : Bool
  monacoCode : Option String
  codeCandidates : List String
  textareas : List String
  submissionId : Option String
  graphql : Option GraphQLDetails
  problemInfo : Option (String × String × String)
  language : String
  runtime : String
  memory : String
  nowId : String
deriving DecidableEq

/-- Models the final fallback of LeetCodeV2.getCode: any textarea whose
trimmed value is longer than 20 characters and contains a code keyword. -/
def getCodeFromTextareas : List String → Option String
  | [] => none
  | t :: rest =>
      let code := jsTrim t
      if code != "" && decide (20 < code.length)
          && (strContains code "function" || strContains code "class"
              || strContains code "def") then some code
      else getCodeFromTextareas rest

/-- Models LeetCodeV2.getCode: the Monaco editor model value is returned
as-is (no trim, no length check) when the registry is present; otherwise
the selector loop, then the textarea fallback. -/
def getCodeV2 (p : PageV2) : Option String :=
  match p.monacoCode with
  | some code => some code
  | none =>
      match getCodeFromSelectors p.codeCandidates with
      | some c => some c
      | none => getCodeFromTextareas p.textareas

/-- Models LeetCodeV2.getSubmissionFromGraphQL: on a successful detail
fetch the Submission is built directly from the response, with no check on
the code; on failure the catch yields null. -/
def getSubmissionFromGraphQL (subId : String) (g : Option GraphQLDetails) :
    Option Submission :=
  match g with
  | none => none
  | some d =>
      some { id := subId, title := d.title, titleSlug := d.titleSlug,
             difficulty := d.difficulty,
             language := jsOr d.langVerboseName d.langName, code := d.code,
             runtime := jsOr d.runtimeDisplay (d.runtime ++ " ms"),
             memory := jsOr d.memoryDisplay (d.memory ++ " MB") }

/-- Models LeetCodeV2.getSubmissionFromPage. -/
def getSubmissionFromPage (p : PageV2) : Option Submission :=
  match p.problemInfo, getCodeV2 p with
  | some (title, slug, diff), some code =>
      if code = "" then none
      else some (mkPageSubmission p.nowId title slug diff p.language code p.runtime p.memory)
  | _, _ => none

/-- Models LeetCodeV2.getSubmissionDetails: when a submission id is found
the GraphQL result is returned directly (absent included — no fallback to
the page in that case); only without an id is the page scraped. -/
def getSubmissionDetailsV2 (p : PageV2) : Option Submission :=
  if !p.isSuccess then none
  else
    match p.submissionId with
    | some sid => getSubmissionFromGraphQL sid p.graphql
    | none => getSubmissionFromPage p

/-! ## Commit queue storage (src: storage.ts, StorageManager) -/

/-- Models StorageManager.removeFromCommitQueue: keeps the commits whose
id differs. -/
def removeFromCommitQueue (q : List QueuedCommit) (cid : String) : List QueuedCommit :=
  q.filter (fun qc => qc.id ≠ cid)

/-- Models StorageManager.updateCommitInQueue for the update object the
Processor passes (retryCount and lastError): the first commit with the
given id is overwritten; a missing id is a no-op. -/
def updateCommitInQueue : List QueuedCommit → String → Nat → String → List QueuedCommit
  | [], _, _, _ => []
  | qc :: rest, cid, rc, err =>
      if qc.id = cid then { qc with retryCount := rc, lastError := some err } :: rest
      else qc :: updateCommitInQueue rest cid rc err

/-! ## Background service (src: background/index.ts,
class LeetShipBackgroundService) -/

/-- The QueuedCommit built by processSubmissionImmediately. -/
def mkImmediateCommit (s : Submission) (now : Nat) : QueuedCommit :=
  { id := "immediate-" ++ toString now, submission := s, timestamp := now,
    retryCount := 0, lastError := none }

/-- The QueuedCommit built by queueSubmissionForRetry. -/
def mkRetryCommit (s : Submission) (now : Nat) (err : String) : QueuedCommit :=
  { id := "retry-" ++ toString now, submission := s, timestamp := now,
    retryCount := 0, lastError := some err }

/-- The persisted background state touched by handleSubmissionAccepted:
the durable commit queue and the processed-fingerprint set. -/
structure BGState where
  queue : List QueuedCommit
  processed : List String
deriving DecidableEq

/-- How one call to handleSubmissionAccepted ended. -/
inductive HandleOutcome where
  | inFlightSkip
  | notAuthenticated
  | invalidQueued
  | duplicateSkipped
  | committed
  | authFailureCleared
  | failureQueued
deriving DecidableEq

/-- Models LeetShipBackgroundService.handleSubmissionAccepted for one
message.  auth is the outcome of validateAuthentication; commitResult is
the outcome of commitManager.processCommit (absent = resolved, present =
the thrown error message); inflight is the in-memory processing set at
entry.  Returns the new persisted state, whether processCommit was
invoked, and how the call ended.  Control flow follows the source: the
synthesized processing-key guard, then the authentication gate, then
isValidSubmission (whose throw is caught and routed to
queueSubmissionForRetry), then the skipDuplicates lookup, then the
immediate commit with its catch (credential errors clear the token and do
not enqueue; other errors enqueue a retry commit). -/
def handleSubmissionAccepted (auth : Bool) (skipDuplicates : Bool)
    (commitResult : Option String) (inflight : List String) (now : Nat)
    (s : Submission) (st : BGState) : BGState × Bool × HandleOutcome :=
  let processingKey := s.titleSlug ++ "-" ++ s.language ++ "-" ++ toString now
  if processingKey ∈ inflight then (st, false, .inFlightSkip)
  else if !auth then (st, false, .notAuthenticated)
  else if !isValidSubmission s then
    ({ st with queue := st.queue ++ [mkRetryCommit s now "Invalid submission data"] },
     false, .invalidQueued)
  else if skipDuplicates && st.processed.contains (generateSubmissionKey s) then
    (st, false, .duplicateSkipped)
  else
    match commitResult with
    | none =>
        ({ st with processed := generateSubmissionKey s :: st.processed },
         true, .committed)
    | some msg =>
        if strContains msg "Bad credentials" || strContains msg "401" then
          (st, true, .authFailureCleared)
        else
          ({ st with queue := st.queue ++ [mkRetryCommit s now msg] },
           true, .failureQueued)

/-- The storage effect of one processed item of the drain loop: on
success removeFromCommitQueue (markSubmissionProcessed touches only the
fingerprint set), on failure updateCommitInQueue with the snapshot
retryCount plus one and the error message. -/
def drainEffect (succ : QueuedCommit → Bool) (errOf : QueuedCommit → String)
    (qc : QueuedCommit) (stored : List QueuedCommit) : List QueuedCommit :=
  if succ qc then removeFromCommitQueue stored qc.id
  else updateCommitInQueue stored qc.id (qc.retryCount + 1) (errOf qc)

/-- Records one commit-protocol invocation in the drain result. -/
def withInvoked (cid : String) (r : List QueuedCommit × List String) :
    List QueuedCommit × List String := (r.1, cid :: r.2)

/-- Models the drain loop of
LeetShipBackgroundService.processQueuedCommits.  The loop iterates over
the snapshot read from storage while the stored queue evolves underneath:
an item already in the in-memory processing set is skipped; an item with
retryCount at least 3 is removed without invoking the commit protocol;
otherwise the commit protocol runs and its drainEffect is applied.  succ
and errOf are the per-item outcome of commitManager.processCommit.
Returns the final stored queue and the ids for which the commit protocol
was invoked. -/
def drainGo (inflight : List String) (succ : QueuedCommit → Bool)
    (errOf : QueuedCommit → String) :
    List QueuedCommit → List QueuedCommit → List QueuedCommit × List String
  | [], stored => (stored, [])
  | qc :: rest, stored =>
      if qc.id ∈ inflight then drainGo inflight succ errOf rest stored
      else if 3 ≤ qc.retryCount then
        drainGo inflight succ errOf rest (removeFromCommitQueue stored qc.id)
      else
        withInvoked qc.id
          (drainGo inflight succ errOf rest (drainEffect succ errOf qc stored))

/-- Models processQueuedCommits: the snapshot is the stored queue read at
entry. -/
def processQueuedCommits (inflight : List String) (succ : QueuedCommit → Bool)
    (errOf : QueuedCommit → String) (q : List QueuedCommit) :
    List QueuedCommit × List String :=
  drainGo inflight succ errOf q q

/-! ## Configuration records (src: types.ts, storage.ts) -/

/-- The GitHub part of the configuration. -/
structure GitHubConfig where
  username : String
  repository : String
  branch : String
  accessToken : String
  refreshToken : String
  tokenExpiry : Option Nat
deriving DecidableEq

/-- The extension configuration; of the settings only skipDuplicates is
consulted by the code under verification, and the template fields are
carried opaquely. -/
structure ExtensionConfig where
  github : Option GitHubConfig
  skipDuplicates : Bool
deriving DecidableEq

/-- DEFAULT_CONFIG of storage.ts: no GitHub connection, skipDuplicates
on. -/
def DEFAULT_CONFIG : ExtensionConfig := { github := none, skipDuplicates := true }

/-- The token-blanking copy both storeGitHubToken and setConfig perform
before persisting a github record. -/
def sanitizeTokens (g : GitHubConfig) : GitHubConfig :=
  { g with accessToken := "", refreshToken := "" }

/-! ## CommitManager (src: background/commit-manager.ts) -/

/-- One generated file: name and content (source, per-problem README). -/
structure CommitFile where
  name : String
  content : String
deriving DecidableEq

/-- The outcomes of the remote operations processCommit and
updateRepositoryReadme perform.  fileWrite gives, per full path and
content, the outcome of githubAPI.createOrUpdateFile (absent = resolved,
present = the thrown error); readmeGet is the getFile of the repository
README; readmeTransform is the outcome of the inner computation of
updateReadmeWithNewSubmission (the solution scan and splicing);
readmePut is the outcome of the final createOrUpdateFile on the
README. -/
structure CMOracle where
  fileWrite : String → String → Option String
  readmeGet : Except String (Option GitHubFile)
  readmeTransform : Except String String
  readmePut : Option String

/-- The initial README skeleton generateInitialReadme returns
(abbreviated: its text plays no role in the control flow under
verification). -/
def generateInitialReadme : String := "# LeetCode Solutions"

/-- Models CommitManager.updateReadmeWithNewSubmission: the whole body is
inside a try whose catch returns the incoming content unchanged. -/
def updateReadmeWithNewSubmission (content : String) (o : CMOracle) : String :=
  match o.readmeTransform with
  | .ok updated => updated
  | .error _ => content

/-- Models CommitManager.updateRepositoryReadme: read the existing README
(or synthesize the skeleton), recompute its sections, write it back — and
the entire body runs inside a try whose catch only logs, so every error
raised inside is swallowed and the method always resolves. -/
def updateRepositoryReadme (o : CMOracle) : Unit :=
  let inner : Except String Unit := do
    let readme ← o.readmeGet
    let content :=
      match readme with
      | some f => f.content
      | none => generateInitialReadme
    let content := updateReadmeWithNewSubmission content o
    let _ := content
    match o.readmePut with
    | some e => throw e
    | none => pure ()
  match inner with
  | .ok _ => ()
  | .error _ => ()

/-- The per-file write loop of CommitManager.processCommit: each file is
written to folderPath slash name; a rejected write is rethrown and aborts
the commit. -/
def writeFiles (o : CMOracle) (folderPath : String) :
    List CommitFile → Except String Unit
  | [] => .ok ()
  | f :: rest =>
      match o.fileWrite (folderPath ++ "/" ++ f.name) f.content with
      | some e => .error e
      | none => writeFiles o folderPath rest

/-- Models CommitManager.processCommit.  The pure template steps
(getVariables, generateFolderPath, commit message, generateFiles) cannot
throw and are abstracted into the folderPath and files arguments;
getProblemDetails never throws (its catch returns undefined).  The
per-file writes run first; only after they all resolve is
updateRepositoryReadme awaited, and its result — always unit, since it
swallows its own errors — cannot reject the commit. -/
def processCommitWithConfig (g : GitHubConfig) (o : CMOracle)
    (folderPath : String) (files : List CommitFile) : Except String Unit :=
  if g.repository = "" then .error "No repository configured"
  else
    match writeFiles o folderPath files with
    | .error e => .error e
    | .ok _ =>
        let _ := updateRepositoryReadme o
        .ok ()

def processCommit (github : Option GitHubConfig) (o : CMOracle)
    (folderPath : String) (files : List CommitFile) : Except String Unit :=
  match github with
  | none => .error "GitHub configuration not found"
  | some g => processCommitWithConfig g o folderPath files

/-! ## Secure token storage (src: security/token-manager.ts, storage.ts)

The persisted key-value store is modelled with one field per key the code
uses: the plain config record under the LeetShip:config key, and the
secure-namespaced session token, refresh token, token-free GitHub config
and metadata. -/

/-- The metadata record stored beside the durable token. -/
structure TokenMetadata where
  storedAt : Nat
  tokenExpiry : Option Nat
  lastValidated : Nat
deriving DecidableEq

/-- The secure tiers managed by TokenManager. -/
structure SecureState where
  sessionToken : Option String
  refreshToken : Option String
  secureConfig : Option GitHubConfig
  metadata : Option TokenMetadata
deriving DecidableEq

/-- The whole persisted store. -/
structure StorageState where
  plainConfig : Option ExtensionConfig
  secure : SecureState
deriving DecidableEq

/-- Models TokenManager.storeGitHubToken: access token to the session
tier (when non-empty), refresh token to the encrypted durable tier (when
non-empty), a token-free copy of the config and fresh metadata to the
durable tier. -/
def storeGitHubToken (now : Nat) (cfg : GitHubConfig) (st : StorageState) : StorageState :=
  let s1 := if cfg.accessToken ≠ "" then { st.secure with sessionToken := some cfg.accessToken }
            else st.secure
  let s2 := if cfg.refreshToken ≠ "" then { s1 with refreshToken := some cfg.refreshToken }
            else s1
  let md : TokenMetadata :=
    { storedAt := now, tokenExpiry := cfg.tokenExpiry, lastValidated := now }
  { st with secure := { s2 with secureConfig := some (sanitizeTokens cfg), metadata := some md } }

/-- Models StorageManager.setConfig: the GitHub part goes through
storeGitHubToken, then a copy of the configuration whose github record has
accessToken and refreshToken blanked is written under the plain config
key. -/
def setConfig (now : Nat) (config : ExtensionConfig) (st : StorageState) : StorageState :=
  let st1 :=
    match config.github with
    | some g => storeGitHubToken now g st
    | none => st
  { st1 with plainConfig := some { config with github := config.github.map sanitizeTokens } }

/-- Models StorageManager.getConfig: the stored record (our typed model
makes the spread with DEFAULT_CONFIG the identity), or DEFAULT_CONFIG —
which is also written back through setConfig when nothing was stored. -/
def getConfigSM (now : Nat) (st : StorageState) : ExtensionConfig × StorageState :=
  match st.plainConfig with
  | some c => (c, st)
  | none => (DEFAULT_CONFIG, setConfig now DEFAULT_CONFIG st)

/-- Models StorageManager.forceTokenRefresh: TokenManager.forceTokenRefresh
clears the session tier (and the in-memory validation cache, which lives
outside the persisted store), then the plain config record — when it has a
github part — is rewritten with blank tokens and no expiry. -/
def forceTokenRefreshSM (now : Nat) (st : StorageState) : StorageState :=
  let st1 := { st with secure := { st.secure with sessionToken := none } }
  let (cfg, st2) := getConfigSM now st1
  match cfg.github with
  | some g =>
      let g1 := { g with accessToken := "", refreshToken := "", tokenExpiry := none }
      { st2 with plainConfig := some { cfg with github := some g1 } }
  | none => st2

/-- The AUTH_WITH_PAT payload fields that survive into the stored
config. -/
structure AuthPayload where
  owner : Option String
  repository : String
  branch : String
deriving DecidableEq

/-- Models LeetShipBackgroundService.handleAuthWithPAT: authResult is the
outcome of githubAuth.authenticateWithToken (absent = it threw, nothing is
persisted); current abstracts the configuration getDecryptedConfig
returned.  On success the payload's repository/branch (and owner when the
authenticated config lacks a username) are merged and the whole
configuration is persisted through setConfig. -/
def handleAuthWithPAT (now : Nat) (authResult : Option GitHubConfig)
    (payload : AuthPayload) (current : ExtensionConfig) (st : StorageState) :
    StorageState :=
  match authResult with
  | none => st
  | some cfg =>
      let cfg := { cfg with repository := payload.repository, branch := payload.branch }
      let cfg :=
        match payload.owner with
        | some o => if cfg.username = "" then { cfg with username := o } else cfg
        | none => cfg
      setConfig now { current with github := some cfg } st

/-- The invariant of claim C7: the record stored under the plain config
key never carries a token. -/
def plainConfigTokenFree (st : StorageState) : Prop :=
  ∀ c g, st.plainConfig = some c → c.github = some g →
    g.accessToken = "" ∧ g.refreshToken = ""

/-! ## TokenManager token retrieval (src: security/token-manager.ts)

The state of the TokenManager: the two storage tiers, the stored
metadata, the in-memory per-token-hash validation cache and a counter of
the validation network calls (validateTokenWithGitHub invocations)
performed so far.  The SHA-256 token hash is abstracted as an arbitrary
function h, and GitHub's answer to a validation request as the oracle
netValid, assumed stable over the scenario's window. -/

structure TMState where
  session : Option String
  refresh : Option String
  metadata : Option TokenMetadata
  cache : List (String × Bool × Nat)
  netCalls : Nat
deriving DecidableEq

/-- Map.get on the validation cache. -/
def cacheLookup : List (String × Bool × Nat) → String → Option (Bool × Nat)
  | [], _ => none
  | (k, v, e) :: rest, key => if k = key then some (v, e) else cacheLookup rest key

/-- Map.set on the validation cache. -/
def cacheSet : List (String × Bool × Nat) → String → Bool → Nat → List (String × Bool × Nat)
  | [], key, v, e => [(key, v, e)]
  | (k, v0, e0) :: rest, key, v, e =>
      if k = key then (key, v, e) :: rest else (k, v0, e0) :: cacheSet rest key v e

/-- The CACHE_DURATION constant: five minutes in milliseconds. -/
def CACHE_DURATION : Nat := 300000

/-- Models TokenManager.validateTokenWithCache: a cached entry that has
not expired answers without a network call; otherwise
validateTokenWithGitHub is called and the result cached for
CACHE_DURATION. -/
def validateTokenWithCache (h : String → String) (netValid : String → Bool)
    (now : Nat) (tok : String) (st : TMState) : Bool × TMState :=
  match cacheLookup st.cache (h tok) with
  | some (valid, expires) =>
      if now < expires then (valid, st)
      else
        let v := netValid tok
        (v, { st with netCalls := st.netCalls + 1,
                      cache := cacheSet st.cache (h tok) v (now + CACHE_DURATION) })
  | none =>
      let v := netValid tok
      (v, { st with netCalls := st.netCalls + 1,
                    cache := cacheSet st.cache (h tok) v (now + CACHE_DURATION) })

/-- Models TokenManager.clearAllTokens on the TokenManager state. -/
def clearAllTokensTM (st : TMState) : TMState :=
  { session := none, refresh := none, metadata := none, cache := [],
    netCalls := st.netCalls }

/-- Models TokenManager.refreshTokenFromStorage: without metadata there is
nothing to refresh; an expired stored token clears everything; otherwise
the durable token — when present — is validated by a DIRECT
validateTokenWithGitHub call (not through the cache) and returned when
valid. -/
def refreshTokenFromStorage (netValid : String → Bool) (now : Nat)
    (st : TMState) : Option String × TMState :=
  match st.metadata with
  | none => (none, st)
  | some md =>
      if md.tokenExpiry.any (fun e => e < now) then (none, clearAllTokensTM st)
      else
        match st.refresh with
        | some rt =>
            let st1 := { st with netCalls := st.netCalls + 1 }
            if netValid rt then (some rt, st1) else (none, st1)
        | none => (none, st)

/-- The fall-through tail of getGitHubToken: refresh from persistent
storage and, on success, promote the token into the session tier. -/
def getTokenFromPersistent (netValid : String → Bool) (now : Nat)
    (st : TMState) : Option String × TMState :=
  match refreshTokenFromStorage netValid now st with
  | (some t, st1) => (some t, { st1 with session := some t })
  | (none, st1) => (none, st1)

/-- Models TokenManager.getGitHubToken: a session-tier token is validated
through the cache and returned when valid (an invalid one is purged and
control falls through); without a usable session token the durable tier is
tried. -/
def getGitHubToken (h : String → String) (netValid : String → Bool)
    (now : Nat) (st : TMState) : Option String × TMState :=
  match st.session with
  | some tok =>
      let r := validateTokenWithCache h netValid now tok st
      if r.1 then (some tok, r.2)
      else getTokenFromPersistent netValid now { r.2 with session := none }
  | none => getTokenFromPersistent netValid now st

/-! ## In-flight guard (src: background/index.ts, the processing set)

The concurrency claim is settled over a small transition system: each
logical task is in one of four phases, and the shared state is the
in-memory processing set.  The check-and-insert at the top of
handleSubmissionAccepted (lines with no await between the has test and the
add) and of the drain-loop body are a single atomic step under the
single-threaded run-to-completion execution model; the finally-block
delete is the finish step. -/

/-- The phase of one logical processing task for identifier key. -/
inductive TaskPhase where
  | ready (key : String)
  | running (key : String)
  | skipped
  | done
deriving DecidableEq

/-- True exactly on a running phase. -/
def TaskPhase.isRunning : TaskPhase → Bool
  | .running _ => true
  | _ => false

/-- Tasks plus the shared processing set. -/
structure ProcSys where
  tasks : List TaskPhase
  inflight : List String
deriving DecidableEq

/-- The three atomic steps: enter (the guard finds the key absent, adds
it, and the task starts processing), skip (the guard finds the key
present and the task returns without processing), finish (the finally
block deletes the key). -/
inductive ProcStep : ProcSys → ProcSys → Prop where
  | enter (s : ProcSys) (i : Nat) (k : String)
      (hget : s.tasks.get? i = some (.ready k)) (habs : k ∉ s.inflight) :
      ProcStep s ⟨s.tasks.set i (.running k), k :: s.inflight⟩
  | skip (s : ProcSys) (i : Nat) (k : String)
      (hget : s.tasks.get? i = some (.ready k)) (hmem : k ∈ s.inflight) :
      ProcStep s ⟨s.tasks.set i .skipped, s.inflight⟩
  | finish (s : ProcSys) (i : Nat) (k : String)
      (hget : s.tasks.get? i = some (.running k)) :
      ProcStep s ⟨s.tasks.set i .done, s.inflight.filter (fun x => x ≠ k)⟩

/-- An initial system: empty processing set, no task mid-processing. -/
def ProcInit (s : ProcSys) : Prop :=
  s.inflight = [] ∧ ∀ p ∈ s.tasks, p.isRunning = false

/-- The states reachable from an initial system. -/
inductive ProcReachable : ProcSys → ProcSys → Prop where
  | init (s : ProcSys) : ProcInit s → ProcReachable s s
  | step (s0 s t : ProcSys) : ProcReachable s0 s → ProcStep s t → ProcReachable s0 t

/-! ## Concrete instances used to evaluate the theorems -/

/-- A GraphQL detail record whose code is a single character. -/
def c4Details : GraphQLDetails :=
  { title := "Two Sum", titleSlug := "two-sum", difficulty := "Easy",
    langName := "python3", langVerboseName := "Python3", code := "x",
    runtime := "52", runtimeDisplay := "52 ms", memory := "15.3",
    memoryDisplay := "15.3 MB" }

/-- A V2 page on which the GraphQL detail path fires. -/
def c4Page : PageV2 :=
  { isSuccess := true, monacoCode := none, codeCandidates := [],
    textareas := [], submissionId := some "123", graphql := some c4Details,
    problemInfo := none, language := "", runtime := "", memory := "",
    nowId := "0" }

/-- The submission c4Page extracts. -/
def c4Sub : Submission :=
  { id := "123", title := "Two Sum", titleSlug := "two-sum",
    difficulty := "Easy", language := "Python3", code := "x",
    runtime := "52 ms", memory := "15.3 MB" }

/-- A V2 page on which the Monaco editor path yields one character. -/
def c4MonacoPage : PageV2 :=
  { isSuccess := true, monacoCode := some "x", codeCandidates := [],
    textareas := [], submissionId := none, graphql := none,
    problemInfo := some ("Two Sum", "two-sum", "Easy"),
    language := "Python3", runtime := "52 ms", memory := "15.3 MB",
    nowId := "17" }

/-- A V1 page with one sufficiently long code candidate. -/
def c4GoodPageV1 : PageV1 :=
  { isSuccess := true, codeCandidates := ["  def two_sum(nums): return nums  "],
    problemInfo := some ("Two Sum", "two-sum", "Easy"),
    language := "Python3", runtime := "52 ms", memory := "15.3 MB",
    nowId := "17" }

/-- A V2 page that scrapes the same candidate from the DOM. -/
def c4GoodPageV2 : PageV2 :=
  { isSuccess := true, monacoCode := none,
    codeCandidates := ["  def two_sum(nums): return nums  "],
    textareas := [], submissionId := none, graphql := none,
    problemInfo := some ("Two Sum", "two-sum", "Easy"),
    language := "Python3", runtime := "52 ms", memory := "15.3 MB",
    nowId := "17" }

/-- An invalid submission (empty title) whose fingerprint collides with a
previously processed valid one: the fingerprint does not involve the
title. -/
def c5BadSub : Submission :=
  { id := "9", title := "", titleSlug := "two-sum", difficulty := "Easy",
    language := "python3", code := "def two_sum(nums): return nums",
    runtime := "N/A", memory := "N/A" }

/-- A background state that has already processed c5BadSub's
fingerprint. -/
def c5St : BGState :=
  { queue := [], processed := [generateSubmissionKey c5BadSub] }

/-- A valid submission for the amended dedup theorem. -/
def c5GoodSub : Submission :=
  { id := "9", title := "Two Sum", titleSlug := "two-sum",
    difficulty := "Easy", language := "python3",
    code := "def two_sum(nums): return nums", runtime := "N/A",
    memory := "N/A" }

/-- A background state that has already processed c5GoodSub's
fingerprint. -/
def c5StGood : BGState :=
  { queue := [], processed := [generateSubmissionKey c5GoodSub] }

/-- A token-manager state whose only token lives in the durable tier. -/
def c8StDur : TMState :=
  { session := none, refresh := some "ghp-token", metadata :=
      some { storedAt := 0, tokenExpiry := none, lastValidated := 0 },
    cache := [], netCalls := 0 }

/-- A token-manager state whose token lives in the session tier, with a
cold cache. -/
def c8StSess : TMState :=
  { session := some "ghp-token", refresh := none, metadata := none,
    cache := [], netCalls := 0 }

/-- A GitHub record carrying live tokens. -/
def c7GitHub : GitHubConfig :=
  { username := "u", repository := "solutions", branch := "main",
    accessToken := "ghp-secret", refreshToken := "ghp-secret",
    tokenExpiry := none }

/-- A configuration carrying live tokens, as handed to setConfig. -/
def c7Cfg : ExtensionConfig := { github := some c7GitHub, skipDuplicates := true }

/-- An empty persisted store. -/
def c7St0 : StorageState :=
  { plainConfig := none,
    secure := { sessionToken := none, refreshToken := none,
                secureConfig := none, metadata := none } }

/-- The token-free github record setConfig persists for c7Cfg. -/
def c7CleanGitHub : GitHubConfig :=
  { username := "u", repository := "solutions", branch := "main",
    accessToken := "", refreshToken := "", tokenExpiry := none }

/-- A commit-manager oracle on which every per-file write resolves and
every README-side operation fails. -/
def c10Oracle : CMOracle :=
  { fileWrite := fun _ _ => none, readmeGet := .error "getFile failed",
    readmeTransform := .error "scan failed",
    readmePut := some "README write failed" }

/-- The GitHub part of the configuration for the commit scenario. -/
def c10GitHub : GitHubConfig :=
  { username := "u", repository := "solutions", branch := "main",
    accessToken := "", refreshToken := "", tokenExpiry := none }

/-- The two generated files of one submission. -/
def c10Files : List CommitFile :=
  [{ name := "solution.py", content := "def two_sum(nums): return nums" },
   { name := "README.md", content := "# Two Sum" }]

/-- A queued commit that succeeds on this drain. -/
def c10Commit : QueuedCommit :=
  { id := "retry-7", submission := c5GoodSub, timestamp := 7,
    retryCount := 1, lastError := some "boom" }

/-- An abandoned queue item: three failed attempts already. -/
def c1Item1 : QueuedCommit :=
  { id := "retry-1", submission := c5GoodSub, timestamp := 1,
    retryCount := 3, lastError := some "e1" }

/-- A queue item with one failed attempt so far. -/
def c1Item2 : QueuedCommit :=
  { id := "retry-2", submission := c5GoodSub, timestamp := 2,
    retryCount := 1, lastError := some "e2" }

/-- A drain queue for the retry-bound scenario: one abandoned item, one
item that fails once more. -/
def c1Queue : List QueuedCommit := [c1Item1, c1Item2]

/-- An initial two-task system competing for the same key. -/
def c9Start : ProcSys := { tasks := [.ready "two-sum-python3-7", .ready "two-sum-python3-7"], inflight := [] }

/-- The system after the first task entered processing. -/
def c9Mid : ProcSys := { tasks := [.running "two-sum-python3-7", .ready "two-sum-python3-7"], inflight := ["two-sum-python3-7"] }

/-- The system after the second task hit the guard and skipped. -/
def c9End : ProcSys := { tasks := [.running "two-sum-python3-7", .skipped], inflight := ["two-sum-python3-7"] }

/-- A repository state holding one already-committed file. -/
def c2Repo : RepoState := [("easy-0001-two-sum/solution.py", { content := "old", sha := "blob-old" })]

/-! # Theorems -/

/-! ## Helper lemmas -/

/-- Reading back the entry putEntry just stored. -/
theorem getFile_putEntry (repo : RepoState) (p : String) (f : GitHubFile) :
    getFile (putEntry repo p f) p = some f := by
  induction repo with
  | nil => simp [putEntry, getFile]
  | cons hd tl ih =>
      obtain ⟨q, g⟩ := hd
      by_cases h : q = p
      · simp [putEntry, getFile, h]
      · simp [putEntry, getFile, h, ih]

/-! ## C3 — the folder-layout template (code bug)

Rendering the default folder template does produce the slash-separated
path, but generateFolderPath then sanitizes the rendered path with a
character class that contains the slash itself, so the stored folder path
is flattened to a single dash-separated segment.  The slash-collapsing
replace that follows is dead, and the repository's own aggregate-README
scan expects difficulty-named top-level folders, so the slash was meant to
survive. -/

/-- C3: the template renders to easy/0001-two-sum, but generateFolderPath
returns easy-0001-two-sum — the claimed result is not produced. -/
theorem c3_folder_template_flattened :
    TemplateEngine.render defaultFolderLayout c3Vars = "easy/0001-two-sum" ∧
    TemplateEngine.generateFolderPath defaultFolderLayout c3Vars = "easy-0001-two-sum" ∧
    TemplateEngine.generateFolderPath defaultFolderLayout c3Vars ≠ "easy/0001-two-sum" := by
  decide

/-! ## C6 — makeRequest error classification (code bug)

The 401 and generic branches behave as specified, but the rate-limit
error thrown inside the 403 try block is caught by that block's own
catch, so a rate-limited 403 surfaces as the generic API error. -/

/-- C6: on a 403 whose body carries the rate-limit indicator the probe
does throw the distinct rate-limit error, yet makeRequest's catch swallows
it and the call rejects with the generic status-plus-body error; the 401
and other-status branches match the claim. -/
theorem c6_rate_limit_error_swallowed :
    rateLimitProbe (some (some rateLimitMessage)) = .error .rateLimited ∧
    makeRequestError 403 rateLimitBody (some (some rateLimitMessage)) =
      (.apiError 403 rateLimitBody, false) ∧
    (makeRequestError 403 rateLimitBody (some (some rateLimitMessage))).1 ≠
      GitHubError.rateLimited ∧
    makeRequestError 401 rateLimitBody (some (some rateLimitMessage)) =
      (.badCredentials, true) ∧
    makeRequestError 500 "boom" none = (.apiError 500 "boom", false) := by
  decide

/-! ## C2 — createOrUpdateFile re-reads the sha -/

/-- C2: createOrUpdateFile reads the file first and updates with its sha
when present, creates without a sha when absent; and committing the same
content twice against an unchanged repository makes the second call an
update carrying the current sha — never a second create — which the
remote accepts. -/
theorem c2_createOrUpdateFile_rereads_sha (repo : RepoState) (path content : String) :
    (∀ f, getFile repo path = some f →
        createOrUpdateFile repo path content = .update path content f.sha) ∧
    (getFile repo path = none →
        createOrUpdateFile repo path content = .create path content) ∧
    (∃ repo1,
        applyPut repo (createOrUpdateFile repo path content) = .ok repo1 ∧
        getFile repo1 path = some { content := content, sha := shaOf content } ∧
        createOrUpdateFile repo1 path content = .update path content (shaOf content) ∧
        ∃ repo2, applyPut repo1 (createOrUpdateFile repo1 path content) = .ok repo2) := by
  refine ⟨?_, ?_, ?_⟩
  · intro f hf
    simp [createOrUpdateFile, hf]
  · intro hf
    simp [createOrUpdateFile, hf]
  · refine ⟨putEntry repo path { content := content, sha := shaOf content }, ?_, ?_, ?_, ?_⟩
    · cases hf : getFile repo path with
      | some f => simp [createOrUpdateFile, hf, applyPut]
      | none => simp [createOrUpdateFile, hf, applyPut]
    · exact getFile_putEntry repo path _
    · simp [createOrUpdateFile, getFile_putEntry]
    · refine ⟨putEntry (putEntry repo path { content := content, sha := shaOf content })
        path { content := content, sha := shaOf content }, ?_⟩
      simp [createOrUpdateFile, getFile_putEntry, applyPut]

/-- C2 witness: with the file present the call is an update with the
stored sha; on an empty repository it is a create; and the two-commit
scenario holds on the concrete repository. -/
theorem c2_witness :
    createOrUpdateFile c2Repo "easy-0001-two-sum/solution.py" "new" =
      .update "easy-0001-two-sum/solution.py" "new" "blob-old" ∧
    createOrUpdateFile [] "p" "new" = .create "p" "new" := by
  refine ⟨?_, ?_⟩
  · exact (c2_createOrUpdateFile_rereads_sha c2Repo "easy-0001-two-sum/solution.py" "new").1
      { content := "old", sha := "blob-old" } (by decide)
  · exact (c2_createOrUpdateFile_rereads_sha [] "p" "new").2.1 (by decide)

/-! ## C7 — the plain config record never carries a token -/

/-- Helper: setConfig unconditionally establishes the token-free
invariant on the plain config record. -/
theorem setConfig_tokenFree (now : Nat) (config : ExtensionConfig) (st : StorageState) :
    plainConfigTokenFree (setConfig now config st) := by
  intro c g hc hg
  have hc2 : some { config with github := config.github.map sanitizeTokens } = some c := by
    simpa [setConfig] using hc
  obtain rfl : ({ config with github := config.github.map sanitizeTokens } : ExtensionConfig) = c :=
    Option.some.inj hc2
  simp only [] at hg
  obtain ⟨g0, _, hg0⟩ := Option.map_eq_some'.mp hg
  subst hg0
  exact ⟨rfl, rfl⟩

/-- C7: every configuration-persisting operation leaves (or puts) the
plain config record token-free — setConfig and forceTokenRefresh blank
the token fields unconditionally, storeGitHubToken writes only to the
secure tiers, and a successful AUTH_WITH_PAT persists through
setConfig. -/
theorem c7_token_never_in_plain_config (now : Nat) (st : StorageState) :
    (∀ config, plainConfigTokenFree (setConfig now config st)) ∧
    (plainConfigTokenFree st →
        ∀ g, plainConfigTokenFree (storeGitHubToken now g st)) ∧
    plainConfigTokenFree (forceTokenRefreshSM now st) ∧
    (∀ authResult payload current, plainConfigTokenFree st →
        plainConfigTokenFree (handleAuthWithPAT now authResult payload current st)) := by
  refine ⟨fun config => setConfig_tokenFree now config st, ?_, ?_, ?_⟩
  · intro hfree g c g2 hc hg
    exact hfree c g2 (by simpa [storeGitHubToken] using hc) hg
  · unfold forceTokenRefreshSM getConfigSM
    cases hp : st.plainConfig with
    | none =>
        simp only [hp]
        cases hg : DEFAULT_CONFIG.github with
        | none =>
            intro c g hc hgg
            have := setConfig_tokenFree now DEFAULT_CONFIG
              { st with secure := { st.secure with sessionToken := none } }
            exact this c g (by simpa using hc) hgg
        | some g0 => simp [DEFAULT_CONFIG] at hg
    | some cfg =>
        simp only [hp]
        cases hg : cfg.github with
        | none =>
            intro c g hc hgg
            have hc2 : some cfg = some c := by simpa using hc
            obtain rfl := Option.some.inj hc2
            rw [hg] at hgg
            cases hgg
        | some g0 =>
            intro c g hc hgg
            have hc2 : some { cfg with github := some { sanitizeTokens g0 with tokenExpiry := none } } = some c := by
              simpa [sanitizeTokens] using hc
            obtain rfl := Option.some.inj hc2
            simp only [] at hgg
            obtain rfl := Option.some.inj hgg
            exact ⟨rfl, rfl⟩
  · intro authResult payload current hfree
    cases authResult with
    | none => simpa [handleAuthWithPAT] using hfree
    | some cfg => exact fun c g hc hg => setConfig_tokenFree now _ st c g (by simpa [handleAuthWithPAT] using hc) hg

/-- C7 witness: persisting a configuration whose github record carries a
live token stores a plain record whose token fields are empty. -/
theorem c7_witness :
    (setConfig 0 c7Cfg c7St0).plainConfig =
      some { github := some c7CleanGitHub, skipDuplicates := true } ∧
    c7CleanGitHub.accessToken = "" ∧ c7CleanGitHub.refreshToken = "" := by
  refine ⟨by decide, ?_⟩
  exact (c7_token_never_in_plain_config 0 c7St0).1 c7Cfg
    { github := some c7CleanGitHub, skipDuplicates := true } c7CleanGitHub
    (by decide) (by decide)

/-! ## C8 — the validation cache (corrected)

The session tier validates through the per-token-hash cache, so two
consecutive calls that find the token in the session tier issue exactly
one validation network call.  The durable-tier promotion path, however,
validates with a direct validateTokenWithGitHub call that neither
consults nor fills the cache, so two consecutive calls that start from a
durable-only token issue two network calls inside the five-minute
window. -/

/-- C8 counterexample: the token lives only in the durable tier; the
first call validates it directly and promotes it to the session tier
without filling the cache, so the second call — one minute later, well
inside the five-minute window — misses the cache and validates again:
two validation network calls, not at most one. -/
theorem c8_counterexample :
    (getGitHubToken (fun s => s) (fun _ => true) 0 c8StDur).1 = some "ghp-token" ∧
    (getGitHubToken (fun s => s) (fun _ => true) 60000
        (getGitHubToken (fun s => s) (fun _ => true) 0 c8StDur).2).1 = some "ghp-token" ∧
    ((getGitHubToken (fun s => s) (fun _ => true) 60000
        (getGitHubToken (fun s => s) (fun _ => true) 0 c8StDur).2).2).netCalls = 2 := by
  decide

/-- C8 amended: when the token is found in the session tier (cold cache,
valid token), two consecutive getGitHubToken calls within the cache
window issue exactly one validation network call — the second call is
answered from the per-token-hash cache. -/
theorem c8_session_tier_single_validation (h : String → String)
    (netValid : String → Bool) (now1 now2 : Nat) (tok : String) (st : TMState)
    (hsess : st.session = some tok) (hcache : st.cache = [])
    (hvalid : netValid tok = true) (hwin : now2 < now1 + CACHE_DURATION) :
    (getGitHubToken h netValid now2 (getGitHubToken h netValid now1 st).2).2.netCalls
        = st.netCalls + 1 ∧
    (getGitHubToken h netValid now2 (getGitHubToken h netValid now1 st).2).1 = some tok := by
  have h1 : getGitHubToken h netValid now1 st
      = (some tok, { st with netCalls := st.netCalls + 1, cache := [(h tok, true, now1 + CACHE_DURATION)] }) := by
    simp [getGitHubToken, validateTokenWithCache, hsess, hcache, cacheLookup, cacheSet, hvalid]
  rw [h1]
  simp [getGitHubToken, validateTokenWithCache, cacheLookup, hsess, hwin]

/-- C8 witness: the session-tier scenario evaluated on a concrete state:
one network call in total across the two calls. -/
theorem c8_witness :
    (getGitHubToken (fun s => s) (fun _ => true) 60000
        (getGitHubToken (fun s => s) (fun _ => true) 0 c8StSess).2).2.netCalls = 1 ∧
    (getGitHubToken (fun s => s) (fun _ => true) 60000
        (getGitHubToken (fun s => s) (fun _ => true) 0 c8StSess).2).1 = some "ghp-token" :=
  c8_session_tier_single_validation (fun s => s) (fun _ => true) 0 60000 "ghp-token"
    c8StSess (by decide) (by decide) (by decide) (by decide)

/-! ## C4 — the 10-character code gate (corrected)

The DOM-selector loops of both extractors accept only candidates whose
trimmed text exceeds 10 characters, and V2's textarea fallback requires
more than 20; but V2's Monaco editor-API path and its GraphQL detail path
build the Submission without any length check on the code. -/

/-- The selector loop only returns trimmed candidates longer than 10. -/
theorem getCodeFromSelectors_length (l : List String) (c : String)
    (h : getCodeFromSelectors l = some c) : 10 < c.length := by
  induction l with
  | nil => simp [getCodeFromSelectors] at h
  | cons x rest ih =>
      by_cases hx : jsTrim x != "" && decide (10 < (jsTrim x).length)
      · rw [getCodeFromSelectors, if_pos hx] at h
        obtain rfl := Option.some.inj h
        exact of_decide_eq_true (Bool.and_elim_right hx)
      · rw [getCodeFromSelectors, if_neg hx] at h
        exact ih h

/-- The textarea fallback only returns trimmed values longer than 20. -/
theorem getCodeFromTextareas_length (l : List String) (c : String)
    (h : getCodeFromTextareas l = some c) : 20 < c.length := by
  induction l with
  | nil => simp [getCodeFromTextareas] at h
  | cons x rest ih =>
      by_cases hx : jsTrim x != "" && decide (20 < (jsTrim x).length)
          && (strContains (jsTrim x) "function" || strContains (jsTrim x) "class"
              || strContains (jsTrim x) "def")
      · rw [getCodeFromTextareas, if_pos hx] at h
        obtain rfl := Option.some.inj h
        exact of_decide_eq_true (Bool.and_elim_right (Bool.and_elim_left hx))
      · rw [getCodeFromTextareas, if_neg hx] at h
        exact ih h

/-- C4 counterexample: with a submission id on the page, V2 extraction
returns the GraphQL detail record's code unchecked — here a one-character
code — so a Submission with code length at most 10 is constructed; the
Monaco editor path builds one as well. -/
theorem c4_counterexample :
    getSubmissionDetailsV2 c4Page = some c4Sub ∧ c4Sub.code.length ≤ 10 ∧
    (∃ s, getSubmissionDetailsV2 c4MonacoPage = some s ∧ s.code.length ≤ 10) := by
  refine ⟨by decide, by decide, ?_⟩
  refine ⟨_, rfl, ?_⟩
  decide

/-- C4 amended: V1 extraction never constructs a Submission whose code
has length at most 10, and neither does V2 extraction along its DOM
paths (no Monaco registry, no submission id); the Monaco editor-API path
and the GraphQL detail path carry no such guard. -/
theorem c4_code_length_guard :
    (∀ (p : PageV1) (s : Submission),
        getSubmissionDetailsV1 p = some s → 10 < s.code.length) ∧
    (∀ (p : PageV2) (s : Submission), p.monacoCode = none → p.submissionId = none →
        getSubmissionDetailsV2 p = some s → 10 < s.code.length) := by
  constructor
  · intro p s h
    cases hs : p.isSuccess with
    | false => unfold getSubmissionDetailsV1 at h; rw [hs] at h; cases h
    | true =>
        cases hpi : p.problemInfo with
        | none => unfold getSubmissionDetailsV1 at h; rw [hs, hpi] at h; cases h
        | some info =>
            obtain ⟨title, slug, diff⟩ := info
            cases hc : getCodeV1 p with
            | none => unfold getSubmissionDetailsV1 at h; rw [hs, hpi, hc] at h; cases h
            | some code =>
                have hred : getSubmissionDetailsV1 p
                    = some (mkPageSubmission p.nowId title slug diff p.language code p.runtime p.memory) := by
                  unfold getSubmissionDetailsV1
                  rw [hs, hpi, hc]
                  rfl
                obtain rfl := Option.some.inj (hred.symm.trans h)
                exact getCodeFromSelectors_length p.codeCandidates code hc
  · intro p s hmon hid h
    cases hs : p.isSuccess with
    | false => unfold getSubmissionDetailsV2 at h; rw [hs] at h; cases h
    | true =>
        cases hpi : p.problemInfo with
        | none =>
            unfold getSubmissionDetailsV2 getSubmissionFromPage at h
            rw [hs, hid, hpi] at h; cases h
        | some info =>
            obtain ⟨title, slug, diff⟩ := info
            cases hc : getCodeV2 p with
            | none =>
                unfold getSubmissionDetailsV2 getSubmissionFromPage at h
                rw [hs, hid, hpi, hc] at h; cases h
            | some code =>
                have hlen : 10 < code.length := by
                  unfold getCodeV2 at hc
                  rw [hmon] at hc
                  cases hsel : getCodeFromSelectors p.codeCandidates with
                  | some c0 =>
                      rw [hsel] at hc
                      obtain rfl := Option.some.inj hc
                      exact getCodeFromSelectors_length p.codeCandidates c0 hsel
                  | none =>
                      rw [hsel] at hc
                      have := getCodeFromTextareas_length p.textareas code hc
                      omega
                have hne : ¬ code = "" := by
                  intro he
                  rw [he] at hlen
                  simp [String.length] at hlen
                have hred : getSubmissionDetailsV2 p
                    = (if code = "" then none
                       else some (mkPageSubmission p.nowId title slug diff p.language code p.runtime p.memory)) := by
                  unfold getSubmissionDetailsV2 getSubmissionFromPage
                  rw [hs, hid, hpi, hc]
                  rfl
                rw [if_neg hne] at hred
                obtain rfl := Option.some.inj (hred.symm.trans h)
                exact hlen

/-- C4 witness: the amended guard evaluated on concrete V1 and V2 pages
whose only candidate is a 30-character snippet. -/
theorem c4_witness :
    (∃ s, getSubmissionDetailsV1 c4GoodPageV1 = some s ∧ 10 < s.code.length) ∧
    (∃ s, getSubmissionDetailsV2 c4GoodPageV2 = some s ∧ 10 < s.code.length) := by
  constructor
  · refine ⟨_, rfl, ?_⟩
    exact c4_code_length_guard.1 c4GoodPageV1 _ rfl
  · refine ⟨_, rfl, ?_⟩
    exact c4_code_length_guard.2 c4GoodPageV2 _ (by decide) (by decide) rfl

/-! ## C5 — skipDuplicates dedup (corrected)

For a valid submission the duplicate check fires before any commit or
enqueue.  But isValidSubmission runs before the duplicate check and its
failure is caught by the catch block, which enqueues a retry commit — so
an invalid submission whose fingerprint (which ignores the title) is
already processed is still enqueued. -/

/-- C5 counterexample: an invalid duplicate (empty title, fingerprint
already processed, skipDuplicates on) is appended to the durable queue by
handleSubmissionAccepted. -/
theorem c5_counterexample :
    c5St.processed.contains (generateSubmissionKey c5BadSub) = true ∧
    (handleSubmissionAccepted true true (some "network error") [] 7 c5BadSub c5St).1.queue
      = [mkRetryCommit c5BadSub 7 "Invalid submission data"] ∧
    (handleSubmissionAccepted true true (some "network error") [] 7 c5BadSub c5St).1.queue
      ≠ c5St.queue := by
  decide

/-- C5 amended: for a VALID submission whose fingerprint is already in
the processed set, with skipDuplicates on, handleSubmissionAccepted
neither invokes the commit protocol nor changes the persisted state —
for every authentication outcome, commit outcome and in-flight set. -/
theorem c5_duplicate_not_committed (auth : Bool) (commitResult : Option String)
    (inflight : List String) (now : Nat) (s : Submission) (st : BGState)
    (hvalid : isValidSubmission s = true)
    (hmem : generateSubmissionKey s ∈ st.processed) :
    (handleSubmissionAccepted auth true commitResult inflight now s st).1 = st ∧
    (handleSubmissionAccepted auth true commitResult inflight now s st).2.1 = false := by
  unfold handleSubmissionAccepted
  by_cases hk : (s.titleSlug ++ "-" ++ s.language ++ "-" ++ toString now) ∈ inflight
  · rw [if_pos hk]; exact ⟨rfl, rfl⟩
  · rw [if_neg hk]
    cases auth with
    | false => simp
    | true =>
        rw [if_neg (by simp)]
        rw [if_neg (by simp [hvalid])]
        rw [if_pos (by simp [hmem])]
        exact ⟨rfl, rfl⟩

/-- C5 witness: the amended dedup property evaluated on a concrete valid
duplicate. -/
theorem c5_witness :
    (handleSubmissionAccepted true true none [] 7 c5GoodSub c5StGood).1 = c5StGood ∧
    (handleSubmissionAccepted true true none [] 7 c5GoodSub c5StGood).2.1 = false :=
  c5_duplicate_not_committed true none [] 7 c5GoodSub c5StGood (by decide) (by decide)

/-! ## C1 — the retry bound of the drain loop

Lemmas about the storage primitives and the drain loop, then the bound. -/

/-- Membership in the queue after removeFromCommitQueue. -/
theorem mem_removeFromCommitQueue (q : List QueuedCommit) (cid : String) (e : QueuedCommit) :
    e ∈ removeFromCommitQueue q cid ↔ e ∈ q ∧ e.id ≠ cid := by
  simp [removeFromCommitQueue, List.mem_filter]

/-- updateCommitInQueue changes no id. -/
theorem map_id_updateCommitInQueue (q : List QueuedCommit) (cid : String) (rc : Nat) (err : String) :
    (updateCommitInQueue q cid rc err).map (fun e => e.id) = q.map (fun e => e.id) := by
  induction q with
  | nil => rfl
  | cons hd tl ih =>
      by_cases h : hd.id = cid
      · simp [updateCommitInQueue, h]
      · simp [updateCommitInQueue, h, ih]

/-- An entry with a different id survives updateCommitInQueue
unchanged. -/
theorem mem_updateCommitInQueue_of_ne (q : List QueuedCommit) (cid : String) (rc : Nat)
    (err : String) (e : QueuedCommit) (he : e ∈ q) (hne : e.id ≠ cid) :
    e ∈ updateCommitInQueue q cid rc err := by
  induction q with
  | nil => cases he
  | cons hd tl ih =>
      rcases List.mem_cons.mp he with rfl | htl
      · rw [updateCommitInQueue, if_neg (by exact hne)]
        exact List.mem_cons_self _ _
      · by_cases h : hd.id = cid
        · rw [updateCommitInQueue, if_pos h]
          exact List.mem_cons_of_mem _ htl
        · rw [updateCommitInQueue, if_neg h]
          exact List.mem_cons_of_mem _ (ih htl)

/-- updateCommitInQueue keeps the retry bound when the written value
respects it. -/
theorem retry_le_updateCommitInQueue (q : List QueuedCommit) (cid : String) (rc : Nat)
    (err : String) (hq : ∀ e ∈ q, e.retryCount ≤ 3) (hrc : rc ≤ 3) :
    ∀ e ∈ updateCommitInQueue q cid rc err, e.retryCount ≤ 3 := by
  induction q with
  | nil => intro e he; cases he
  | cons hd tl ih =>
      intro e he
      by_cases h : hd.id = cid
      · rw [updateCommitInQueue, if_pos h] at he
        rcases List.mem_cons.mp he with rfl | htl
        · simpa using hrc
        · exact hq e (List.mem_cons_of_mem _ htl)
      · rw [updateCommitInQueue, if_neg h] at he
        rcases List.mem_cons.mp he with rfl | htl
        · exact hq e (List.mem_cons_self _ _)
        · exact ih (fun x hx => hq x (List.mem_cons_of_mem _ hx)) e htl

/-- When the queue holds an entry with the id, updateCommitInQueue
produces an entry with that id and exactly the written retryCount. -/
theorem exists_updated_entry (q : List QueuedCommit) (cid : String) (rc : Nat) (err : String)
    (hex : ∃ e ∈ q, e.id = cid) :
    ∃ e ∈ updateCommitInQueue q cid rc err, e.id = cid ∧ e.retryCount = rc := by
  induction q with
  | nil => obtain ⟨e, he, _⟩ := hex; cases he
  | cons hd tl ih =>
      by_cases h : hd.id = cid
      · refine ⟨{ hd with retryCount := rc, lastError := some err }, ?_, h, rfl⟩
        rw [updateCommitInQueue, if_pos h]
        exact List.mem_cons_self _ _
      · obtain ⟨e, he, hecid⟩ := hex
        rcases List.mem_cons.mp he with rfl | htl
        · exact absurd hecid h
        · obtain ⟨e2, he2, h2⟩ := ih ⟨e, htl, hecid⟩
          refine ⟨e2, ?_, h2⟩
          rw [updateCommitInQueue, if_neg h]
          exact List.mem_cons_of_mem _ he2

/-- An id absent from the stored queue stays absent under
removeFromCommitQueue. -/
theorem not_mem_map_id_remove (stored : List QueuedCommit) (cid cid2 : String)
    (h : cid2 ∉ stored.map (fun e => e.id)) :
    cid2 ∉ (removeFromCommitQueue stored cid).map (fun e => e.id) := by
  intro hmem
  obtain ⟨e, he, heq⟩ := List.mem_map.mp hmem
  exact h (List.mem_map.mpr ⟨e, ((mem_removeFromCommitQueue _ _ _).mp he).1, heq⟩)

/-- removeFromCommitQueue removes its id entirely. -/
theorem not_mem_map_id_remove_self (stored : List QueuedCommit) (cid : String) :
    cid ∉ (removeFromCommitQueue stored cid).map (fun e => e.id) := by
  intro hmem
  obtain ⟨e, he, heq⟩ := List.mem_map.mp hmem
  exact ((mem_removeFromCommitQueue _ _ _).mp he).2 heq

/-- An id absent from the stored queue stays absent under drainEffect. -/
theorem not_mem_map_id_drainEffect (succ : QueuedCommit → Bool)
    (errOf : QueuedCommit → String) (qc : QueuedCommit) (stored : List QueuedCommit)
    (cid : String) (h : cid ∉ stored.map (fun e => e.id)) :
    cid ∉ (drainEffect succ errOf qc stored).map (fun e => e.id) := by
  unfold drainEffect
  by_cases hs : succ qc
  · rw [if_pos hs]
    exact not_mem_map_id_remove stored qc.id cid h
  · rw [if_neg hs, map_id_updateCommitInQueue]
    exact h

/-- drainEffect keeps the retry bound for an item under the budget. -/
theorem retry_le_drainEffect (succ : QueuedCommit → Bool) (errOf : QueuedCommit → String)
    (qc : QueuedCommit) (stored : List QueuedCommit)
    (hst : ∀ e ∈ stored, e.retryCount ≤ 3) (hqc : qc.retryCount + 1 ≤ 3) :
    ∀ e ∈ drainEffect succ errOf qc stored, e.retryCount ≤ 3 := by
  unfold drainEffect
  by_cases hs : succ qc
  · rw [if_pos hs]
    intro e he
    exact hst e ((mem_removeFromCommitQueue _ _ _).mp he).1
  · rw [if_neg hs]
    exact retry_le_updateCommitInQueue _ _ _ _ hst hqc

/-- An entry with a different id survives drainEffect. -/
theorem mem_drainEffect_of_ne (succ : QueuedCommit → Bool) (errOf : QueuedCommit → String)
    (qc : QueuedCommit) (stored : List QueuedCommit) (e : QueuedCommit)
    (he : e ∈ stored) (hne : e.id ≠ qc.id) : e ∈ drainEffect succ errOf qc stored := by
  unfold drainEffect
  by_cases hs : succ qc
  · rw [if_pos hs]
    exact (mem_removeFromCommitQueue _ _ _).mpr ⟨he, hne⟩
  · rw [if_neg hs]
    exact mem_updateCommitInQueue_of_ne _ _ _ _ e he hne

/-- The drain loop adds no id to the stored queue. -/
theorem drainGo_no_new_ids (inflight : List String) (succ : QueuedCommit → Bool)
    (errOf : QueuedCommit → String) :
    ∀ (snap stored : List QueuedCommit) (cid : String),
      cid ∉ stored.map (fun e => e.id) →
      cid ∉ (drainGo inflight succ errOf snap stored).1.map (fun e => e.id) := by
  intro snap
  induction snap with
  | nil => intro stored cid h; exact h
  | cons qc rest ih =>
      intro stored cid h
      rw [drainGo]
      by_cases h1 : qc.id ∈ inflight
      · rw [if_pos h1]; exact ih stored cid h
      · rw [if_neg h1]
        by_cases h2 : 3 ≤ qc.retryCount
        · rw [if_pos h2]
          exact ih _ cid (not_mem_map_id_remove stored qc.id cid h)
        · rw [if_neg h2]
          exact ih _ cid (not_mem_map_id_drainEffect succ errOf qc stored cid h)

/-- Every invoked id comes from a snapshot item under the retry budget
and outside the in-flight set. -/
theorem drainGo_invoked_spec (inflight : List String) (succ : QueuedCommit → Bool)
    (errOf : QueuedCommit → String) :
    ∀ (snap stored : List QueuedCommit) (cid : String),
      cid ∈ (drainGo inflight succ errOf snap stored).2 →
      ∃ qc ∈ snap, qc.id = cid ∧ qc.retryCount ≤ 2 ∧ cid ∉ inflight := by
  intro snap
  induction snap with
  | nil => intro stored cid h; cases h
  | cons qc rest ih =>
      intro stored cid h
      rw [drainGo] at h
      by_cases h1 : qc.id ∈ inflight
      · rw [if_pos h1] at h
        obtain ⟨qc2, hm, hrest⟩ := ih stored cid h
        exact ⟨qc2, List.mem_cons_of_mem _ hm, hrest⟩
      · rw [if_neg h1] at h
        by_cases h2 : 3 ≤ qc.retryCount
        · rw [if_pos h2] at h
          obtain ⟨qc2, hm, hrest⟩ := ih _ cid h
          exact ⟨qc2, List.mem_cons_of_mem _ hm, hrest⟩
        · rw [if_neg h2] at h
          rcases List.mem_cons.mp h with rfl | htl
          · exact ⟨qc, List.mem_cons_self _ _, rfl, by omega, h1⟩
          · obtain ⟨qc2, hm, hrest⟩ := ih _ cid htl
            exact ⟨qc2, List.mem_cons_of_mem _ hm, hrest⟩

/-- A snapshot item over the retry budget (and not in flight) is absent
from the final stored queue. -/
theorem drainGo_abandoned_removed (inflight : List String) (succ : QueuedCommit → Bool)
    (errOf : QueuedCommit → String) :
    ∀ (snap stored : List QueuedCommit) (qc : QueuedCommit),
      qc ∈ snap → 3 ≤ qc.retryCount → qc.id ∉ inflight →
      qc.id ∉ (drainGo inflight succ errOf snap stored).1.map (fun e => e.id) := by
  intro snap
  induction snap with
  | nil => intro stored qc h; cases h
  | cons a rest ih =>
      intro stored qc hmem h3 hinf
      rw [drainGo]
      rcases List.mem_cons.mp hmem with rfl | htl
      · rw [if_neg hinf, if_pos h3]
        exact drainGo_no_new_ids inflight succ errOf rest _ qc.id
          (not_mem_map_id_remove_self stored qc.id)
      · by_cases h1 : a.id ∈ inflight
        · rw [if_pos h1]; exact ih stored qc htl h3 hinf
        · rw [if_neg h1]
          by_cases h2 : 3 ≤ a.retryCount
          · rw [if_pos h2]; exact ih _ qc htl h3 hinf
          · rw [if_neg h2]; exact ih _ qc htl h3 hinf

/-- A snapshot item that the commit protocol handles successfully is
absent from the final stored queue. -/
theorem drainGo_success_removed (inflight : List String) (succ : QueuedCommit → Bool)
    (errOf : QueuedCommit → String) :
    ∀ (snap stored : List QueuedCommit) (qc : QueuedCommit),
      qc ∈ snap → qc.id ∉ inflight → qc.retryCount ≤ 2 → succ qc = true →
      qc.id ∉ (drainGo inflight succ errOf snap stored).1.map (fun e => e.id) := by
  intro snap
  induction snap with
  | nil => intro stored qc h; cases h
  | cons a rest ih =>
      intro stored qc hmem hinf hrc hsucc
      rw [drainGo]
      rcases List.mem_cons.mp hmem with rfl | htl
      · rw [if_neg hinf, if_neg (by omega)]
        have heff : drainEffect succ errOf qc stored = removeFromCommitQueue stored qc.id := by
          unfold drainEffect
          rw [if_pos hsucc]
        exact drainGo_no_new_ids inflight succ errOf rest _ qc.id
          (heff ▸ not_mem_map_id_remove_self stored qc.id)
      · by_cases h1 : a.id ∈ inflight
        · rw [if_pos h1]; exact ih stored qc htl hinf hrc hsucc
        · rw [if_neg h1]
          by_cases h2 : 3 ≤ a.retryCount
          · rw [if_pos h2]; exact ih _ qc htl hinf hrc hsucc
          · rw [if_neg h2]; exact ih _ qc htl hinf hrc hsucc

/-- The drain loop preserves the retry bound of the stored queue. -/
theorem drainGo_retry_bound (inflight : List String) (succ : QueuedCommit → Bool)
    (errOf : QueuedCommit → String) :
    ∀ (snap stored : List QueuedCommit),
      (∀ e ∈ stored, e.retryCount ≤ 3) →
      ∀ e ∈ (drainGo inflight succ errOf snap stored).1, e.retryCount ≤ 3 := by
  intro snap
  induction snap with
  | nil => intro stored h; exact h
  | cons qc rest ih =>
      intro stored h
      rw [drainGo]
      by_cases h1 : qc.id ∈ inflight
      · rw [if_pos h1]; exact ih stored h
      · rw [if_neg h1]
        by_cases h2 : 3 ≤ qc.retryCount
        · rw [if_pos h2]
          exact ih _ (fun e he => h e ((mem_removeFromCommitQueue _ _ _).mp he).1)
        · rw [if_neg h2]
          exact ih _ (retry_le_drainEffect succ errOf qc stored h (by omega))

/-- An entry no remaining snapshot item refers to survives the drain
untouched. -/
theorem drainGo_preserves_untouched (inflight : List String) (succ : QueuedCommit → Bool)
    (errOf : QueuedCommit → String) :
    ∀ (snap stored : List QueuedCommit) (e : QueuedCommit),
      e ∈ stored → (∀ b ∈ snap, b.id ≠ e.id) →
      e ∈ (drainGo inflight succ errOf snap stored).1 := by
  intro snap
  induction snap with
  | nil => intro stored e he _; exact he
  | cons a rest ih =>
      intro stored e he hids
      have hne : a.id ≠ e.id := hids a (List.mem_cons_self _ _)
      have htl : ∀ b ∈ rest, b.id ≠ e.id := fun b hb => hids b (List.mem_cons_of_mem _ hb)
      rw [drainGo]
      by_cases h1 : a.id ∈ inflight
      · rw [if_pos h1]; exact ih stored e he htl
      · rw [if_neg h1]
        by_cases h2 : 3 ≤ a.retryCount
        · rw [if_pos h2]
          exact ih _ e ((mem_removeFromCommitQueue _ _ _).mpr ⟨he, fun hx => hne hx.symm⟩) htl
        · rw [if_neg h2]
          exact ih _ e (mem_drainEffect_of_ne succ errOf a stored e he (fun hx => hne hx.symm)) htl

/-- A snapshot item that fails its attempt ends up stored with retryCount
incremented by exactly one (snapshot ids distinct). -/
theorem drainGo_failed_incremented (inflight : List String) (succ : QueuedCommit → Bool)
    (errOf : QueuedCommit → String) :
    ∀ (snap stored : List QueuedCommit) (qc : QueuedCommit),
      (snap.map (fun e => e.id)).Nodup → qc ∈ snap → qc ∈ stored →
      qc.id ∉ inflight → qc.retryCount ≤ 2 → succ qc = false →
      ∃ e ∈ (drainGo inflight succ errOf snap stored).1,
        e.id = qc.id ∧ e.retryCount = qc.retryCount + 1 := by
  intro snap
  induction snap with
  | nil => intro stored qc _ h; cases h
  | cons a rest ih =>
      intro stored qc hnodup hmem hstored hinf hrc hsucc
      rw [List.map_cons, List.nodup_cons] at hnodup
      obtain ⟨hnotin, htail⟩ := hnodup
      rw [drainGo]
      rcases List.mem_cons.mp hmem with rfl | htl
      · rw [if_neg hinf, if_neg (by omega)]
        have heff : drainEffect succ errOf qc stored
            = updateCommitInQueue stored qc.id (qc.retryCount + 1) (errOf qc) := by
          unfold drainEffect
          rw [if_neg (by simp [hsucc])]
        obtain ⟨e0, he0, hid0, hrc0⟩ :=
          exists_updated_entry stored qc.id (qc.retryCount + 1) (errOf qc) ⟨qc, hstored, rfl⟩
        refine ⟨e0, ?_, hid0, hrc0⟩
        have hall : ∀ b ∈ rest, b.id ≠ e0.id := by
          intro b hb hbe
          exact hnotin (hid0 ▸ hbe ▸ List.mem_map.mpr ⟨b, hb, rfl⟩)
        exact drainGo_preserves_untouched inflight succ errOf rest _ e0 (heff ▸ he0) hall
      · have hne : a.id ≠ qc.id := by
          intro hx
          exact hnotin (hx ▸ List.mem_map.mpr ⟨qc, htl, rfl⟩)
        by_cases h1 : a.id ∈ inflight
        · rw [if_pos h1]; exact ih stored qc htail htl hstored hinf hrc hsucc
        · rw [if_neg h1]
          by_cases h2 : 3 ≤ a.retryCount
          · rw [if_pos h2]
            exact ih _ qc htail htl
              ((mem_removeFromCommitQueue _ _ _).mpr ⟨hstored, fun hx => hne hx.symm⟩)
              hinf hrc hsucc
          · rw [if_neg h2]
            exact ih _ qc htail htl
              (mem_drainEffect_of_ne succ errOf a stored qc hstored (fun hx => hne hx.symm))
              hinf hrc hsucc

/-- C1: retryCount starts at 0 in both constructors; the drain loop never
hands an item with retryCount at least 3 to the commit protocol and
removes it from the queue; no stored item ever exceeds retryCount 3; and
a failed attempt increments retryCount by exactly one. -/
theorem c1_retryCount_bounded (inflight : List String) (succ : QueuedCommit → Bool)
    (errOf : QueuedCommit → String) (q : List QueuedCommit)
    (hq : ∀ qc ∈ q, qc.retryCount ≤ 3)
    (hids : (q.map (fun e => e.id)).Nodup) :
    (∀ s now, (mkImmediateCommit s now).retryCount = 0) ∧
    (∀ s now e, (mkRetryCommit s now e).retryCount = 0) ∧
    (∀ qc ∈ q, 3 ≤ qc.retryCount →
        qc.id ∉ (processQueuedCommits inflight succ errOf q).2) ∧
    (∀ qc ∈ q, 3 ≤ qc.retryCount → qc.id ∉ inflight →
        qc.id ∉ (processQueuedCommits inflight succ errOf q).1.map (fun e => e.id)) ∧
    (∀ e ∈ (processQueuedCommits inflight succ errOf q).1, e.retryCount ≤ 3) ∧
    (∀ qc ∈ q, qc.id ∉ inflight → qc.retryCount ≤ 2 → succ qc = false →
        ∃ e ∈ (processQueuedCommits inflight succ errOf q).1,
          e.id = qc.id ∧ e.retryCount = qc.retryCount + 1) := by
  refine ⟨fun s now => rfl, fun s now e => rfl, ?_, ?_, ?_, ?_⟩
  · intro qc hqc h3 hmem
    obtain ⟨qc2, hqc2, hid2, hrc2, _⟩ :=
      drainGo_invoked_spec inflight succ errOf q q qc.id hmem
    have heq : qc2 = qc := List.inj_on_of_nodup_map hids hqc2 hqc hid2
    rw [heq] at hrc2
    omega
  · intro qc hqc h3 hinf
    exact drainGo_abandoned_removed inflight succ errOf q q qc hqc h3 hinf
  · exact drainGo_retry_bound inflight succ errOf q q hq
  · intro qc hqc hinf hrc hsucc
    exact drainGo_failed_incremented inflight succ errOf q q qc hids hqc hqc hinf hrc hsucc

/-- C1 witness: on a concrete queue the abandoned item is removed without
an invocation and the failing item's retryCount becomes exactly 2. -/
theorem c1_witness :
    c1Item1.id ∉ (processQueuedCommits [] (fun _ => false) (fun _ => "network error") c1Queue).1.map (fun e => e.id) ∧
    c1Item1.id ∉ (processQueuedCommits [] (fun _ => false) (fun _ => "network error") c1Queue).2 ∧
    (∃ e ∈ (processQueuedCommits [] (fun _ => false) (fun _ => "network error") c1Queue).1,
        e.id = c1Item2.id ∧ e.retryCount = c1Item2.retryCount + 1) := by
  have H := c1_retryCount_bounded [] (fun _ => false) (fun _ => "network error") c1Queue
    (by decide) (by decide)
  refine ⟨?_, ?_, ?_⟩
  · exact H.2.2.2.1 c1Item1 (by decide) (by decide) (by decide)
  · exact H.2.2.1 c1Item1 (by decide) (by decide)
  · exact H.2.2.2.2.2 c1Item2 (by decide) (by decide) (by decide) rfl

/-! ## C10 — an aggregate-README failure never fails the commit -/

/-- When every per-file write resolves, the write loop resolves. -/
theorem writeFiles_ok (o : CMOracle) (folderPath : String) (files : List CommitFile)
    (h : ∀ f ∈ files, o.fileWrite (folderPath ++ "/" ++ f.name) f.content = none) :
    writeFiles o folderPath files = .ok () := by
  induction files with
  | nil => rfl
  | cons f rest ih =>
      rw [writeFiles, h f (List.mem_cons_self _ _)]
      exact ih (fun x hx => h x (List.mem_cons_of_mem _ hx))

/-- C10: with a configured repository and all per-submission file writes
succeeding, processCommit resolves — for every outcome of the README
read, of the section recomputation and of the README write, since
updateRepositoryReadme swallows every error it raises; consequently the
Processor treats the item as succeeded: it is removed from the queue, so
no retryCount increment and no re-queue happens for it. -/
theorem c10_readme_failure_not_fatal (github : GitHubConfig) (o : CMOracle)
    (folderPath : String) (files : List CommitFile)
    (hrepo : github.repository ≠ "")
    (hwrites : ∀ f ∈ files, o.fileWrite (folderPath ++ "/" ++ f.name) f.content = none) :
    processCommit (some github) o folderPath files = .ok () ∧
    (∀ (inflight : List String) (succ : QueuedCommit → Bool)
        (errOf : QueuedCommit → String) (q : List QueuedCommit) (qc : QueuedCommit),
        qc ∈ q → qc.id ∉ inflight → qc.retryCount ≤ 2 → succ qc = true →
        qc.id ∉ (processQueuedCommits inflight succ errOf q).1.map (fun e => e.id)) := by
  constructor
  · have hw := writeFiles_ok o folderPath files hwrites
    show processCommitWithConfig github o folderPath files = .ok ()
    unfold processCommitWithConfig
    rw [if_neg hrepo, hw]
  · intro inflight succ errOf q qc hmem hinf hrc hsucc
    exact drainGo_success_removed inflight succ errOf q q qc hmem hinf hrc hsucc

/-- C10 witness: a concrete commit whose README read, recomputation and
write all fail still resolves, and a concrete succeeding queue item is
removed by the drain. -/
theorem c10_witness :
    processCommit (some c10GitHub) c10Oracle "easy-0001-two-sum" c10Files = .ok () ∧
    c10Commit.id ∉ (processQueuedCommits [] (fun _ => true) (fun _ => "") [c10Commit]).1.map (fun e => e.id) := by
  have H := c10_readme_failure_not_fatal c10GitHub c10Oracle "easy-0001-two-sum" c10Files
    (by decide) (by decide)
  exact ⟨H.1, H.2 [] (fun _ => true) (fun _ => "") [c10Commit] c10Commit (by decide)
    (by decide) (by decide) rfl⟩

/-! ## C9 — the in-flight guard gives mutual exclusion

The invariant: a running task's key is in the in-flight set, and no two
distinct tasks run the same key. -/

/-- get? after set at the same position. -/
theorem get?_set_self {α : Type} (l : List α) (i : Nat) (a b : α)
    (h : l.get? i = some b) : (l.set i a).get? i = some a := by
  induction l generalizing i with
  | nil => cases h
  | cons hd tl ih =>
      cases i with
      | zero => rfl
      | succ n => exact ih n h

/-- get? after set at another position. -/
theorem get?_set_other {α : Type} (l : List α) (i j : Nat) (a : α) (hij : i ≠ j) :
    (l.set i a).get? j = l.get? j := by
  induction l generalizing i j with
  | nil => cases i <;> rfl
  | cons hd tl ih =>
      cases i with
      | zero =>
          cases j with
          | zero => exact absurd rfl hij
          | succ m => rfl
      | succ n =>
          cases j with
          | zero => rfl
          | succ m => exact ih n m (fun h => hij (by rw [h]))

/-- The invariant the guard maintains. -/
def ProcInv (s : ProcSys) : Prop :=
  (∀ i k, s.tasks.get? i = some (.running k) → k ∈ s.inflight) ∧
  (∀ i j k, s.tasks.get? i = some (.running k) →
      s.tasks.get? j = some (.running k) → i = j)

/-- An element read by get? is a member. -/
theorem mem_of_get?_eq {α : Type} (l : List α) (i : Nat) (a : α)
    (h : l.get? i = some a) : a ∈ l := by
  induction l generalizing i with
  | nil => cases h
  | cons hd tl ih =>
      cases i with
      | zero => exact (Option.some.inj h) ▸ List.mem_cons_self _ _
      | succ n => exact List.mem_cons_of_mem _ (ih n h)

/-- Initial systems satisfy the invariant. -/
theorem procInit_inv (s : ProcSys) (h : ProcInit s) : ProcInv s := by
  obtain ⟨hempty, hrun⟩ := h
  constructor
  · intro i k hget
    have := hrun _ (mem_of_get?_eq _ _ _ hget)
    simp [TaskPhase.isRunning] at this
  · intro i j k hget _
    have := hrun _ (mem_of_get?_eq _ _ _ hget)
    simp [TaskPhase.isRunning] at this

/-- Every step preserves the invariant. -/
theorem procStep_inv (s t : ProcSys) (hstep : ProcStep s t) (hinv : ProcInv s) :
    ProcInv t := by
  obtain ⟨h1, h2⟩ := hinv
  cases hstep with
  | enter i k hget habs =>
      constructor
      · intro j k2 hj
        by_cases hij : i = j
        · subst hij
          rw [get?_set_self _ _ _ _ hget] at hj
          obtain rfl := TaskPhase.running.inj (Option.some.inj hj)
          exact List.mem_cons_self _ _
        · rw [get?_set_other _ _ _ _ hij] at hj
          exact List.mem_cons_of_mem _ (h1 j k2 hj)
      · intro i2 j2 k2 hi2 hj2
        by_cases hii : i = i2
        · subst hii
          by_cases hjj : i = j2
          · omega
          · rw [get?_set_other _ _ _ _ hjj] at hj2
            rw [get?_set_self _ _ _ _ hget] at hi2
            obtain rfl := TaskPhase.running.inj (Option.some.inj hi2)
            exact absurd (h1 j2 k hj2) habs
        · rw [get?_set_other _ _ _ _ hii] at hi2
          by_cases hjj : i = j2
          · subst hjj
            rw [get?_set_self _ _ _ _ hget] at hj2
            obtain rfl := TaskPhase.running.inj (Option.some.inj hj2)
            exact absurd (h1 i2 k hi2) habs
          · rw [get?_set_other _ _ _ _ hjj] at hj2
            exact h2 i2 j2 k2 hi2 hj2
  | skip i k hget hmem =>
      constructor
      · intro j k2 hj
        by_cases hij : i = j
        · subst hij
          rw [get?_set_self _ _ _ _ hget] at hj
          cases Option.some.inj hj
        · rw [get?_set_other _ _ _ _ hij] at hj
          exact h1 j k2 hj
      · intro i2 j2 k2 hi2 hj2
        by_cases hii : i = i2
        · subst hii
          rw [get?_set_self _ _ _ _ hget] at hi2
          cases Option.some.inj hi2
        · by_cases hjj : i = j2
          · subst hjj
            rw [get?_set_self _ _ _ _ hget] at hj2
            cases Option.some.inj hj2
          · rw [get?_set_other _ _ _ _ hii] at hi2
            rw [get?_set_other _ _ _ _ hjj] at hj2
            exact h2 i2 j2 k2 hi2 hj2
  | finish i k hget =>
      constructor
      · intro j k2 hj
        by_cases hij : i = j
        · subst hij
          rw [get?_set_self _ _ _ _ hget] at hj
          cases Option.some.inj hj
        · rw [get?_set_other _ _ _ _ hij] at hj
          have hk2 : k2 ∈ s.inflight := h1 j k2 hj
          have hne : k2 ≠ k := by
            intro hx
            subst hx
            exact hij (h2 i j k2 hget hj)
          simp only [List.mem_filter]
          exact ⟨hk2, by simpa using hne⟩
      · intro i2 j2 k2 hi2 hj2
        by_cases hii : i = i2
        · subst hii
          rw [get?_set_self _ _ _ _ hget] at hi2
          cases Option.some.inj hi2
        · by_cases hjj : i = j2
          · subst hjj
            rw [get?_set_self _ _ _ _ hget] at hj2
            cases Option.some.inj hj2
          · rw [get?_set_other _ _ _ _ hii] at hi2
            rw [get?_set_other _ _ _ _ hjj] at hj2
            exact h2 i2 j2 k2 hi2 hj2

/-- Every reachable system satisfies the invariant. -/
theorem procReachable_inv (s0 s : ProcSys) (h : ProcReachable s0 s) : ProcInv s := by
  induction h with
  | init hs => exact procInit_inv _ hs
  | step s t hr hstep ih => exact procStep_inv s t hstep ih

/-- C9: in every reachable system no two distinct tasks are processing
the same identifier, and while one task is processing an identifier a
ready task with the same identifier cannot enter processing in any step —
its guard check finds the identifier in flight, so it can only skip. -/
theorem c9_inflight_mutual_exclusion (s0 s : ProcSys) (h : ProcReachable s0 s) :
    (∀ i j k, s.tasks.get? i = some (.running k) →
        s.tasks.get? j = some (.running k) → i = j) ∧
    (∀ i j k, s.tasks.get? i = some (.ready k) →
        s.tasks.get? j = some (.running k) →
        ∀ t, ProcStep s t → t.tasks.get? i ≠ some (.running k)) := by
  obtain ⟨h1, h2⟩ := procReachable_inv s0 s h
  refine ⟨h2, ?_⟩
  intro i j k hready hrun t hstep hviol
  have hmem : k ∈ s.inflight := h1 j k hrun
  cases hstep with
  | enter i2 k2 hget habs =>
      by_cases hii : i2 = i
      · subst hii
        obtain rfl := TaskPhase.ready.inj (Option.some.inj (hget.symm.trans hready))
        exact habs hmem
      · rw [get?_set_other _ _ _ _ hii] at hviol
        rw [hready] at hviol
        cases Option.some.inj hviol
  | skip i2 k2 hget hmem2 =>
      by_cases hii : i2 = i
      · subst hii
        rw [get?_set_self _ _ _ _ hget] at hviol
        cases Option.some.inj hviol
      · rw [get?_set_other _ _ _ _ hii] at hviol
        rw [hready] at hviol
        cases Option.some.inj hviol
  | finish i2 k2 hget =>
      by_cases hii : i2 = i
      · subst hii
        rw [get?_set_self _ _ _ _ hget] at hviol
        cases Option.some.inj hviol
      · rw [get?_set_other _ _ _ _ hii] at hviol
        rw [hready] at hviol
        cases Option.some.inj hviol

/-- C9 witness: two concrete tasks race for the same key; after the first
entered, the only step available to the second leaves it skipped — it is
not running the key afterwards. -/
theorem c9_witness :
    c9End.tasks.get? 1 ≠ some (.running "two-sum-python3-7") := by
  have hreach : ProcReachable c9Start c9Mid := by
    refine ProcReachable.step c9Start c9Start c9Mid (ProcReachable.init c9Start ?_) ?_
    · exact ⟨rfl, by decide⟩
    · exact ProcStep.enter c9Start 0 "two-sum-python3-7" rfl (by decide)
  have hstep : ProcStep c9Mid c9End :=
    ProcStep.skip c9Mid 1 "two-sum-python3-7" rfl (by decide)
  exact (c9_inflight_mutual_exclusion c9Start c9Mid hreach).2 1 0 "two-sum-python3-7"
    rfl rfl c9End hstep
